import Mathlib

/-!
Shallow embedding of the music-recommender notebook workflow: feature-group
provisioning and ingestion-job gating, endpoint deployment, explainability
artifact caching, inference-row construction, the CSV wire encoding, playlist
ranking, the feature-group creation wait loop, and the distributed-training
parallelism configuration.

Each definition is translated directly from the corresponding notebook cell;
external service calls are modelled by their observable outcome (success, or a
coded client error), and each cell by the actions it performs on that outcome.
-/

/-- Outcome of a service call: success, or a client error carrying an error
code (the value of `e.response.get('Error').get('Code')`). -/
inductive SvcOutcome where
  | ok : SvcOutcome
  | err (code : String) : SvcOutcome
deriving DecidableEq

/-- Observable result of running the feature-group provisioning cell: the
value of the `feature_group_exists` flag (`none` when the cell never assigns
it), the number of `feature_group.create` calls made, and whether an exception
escaped the cell. -/
structure ProvisionResult where
  feature_group_exists : Option Bool
  createCalls : Nat
  raised : Bool
deriving DecidableEq

/-- Embedding of the provisioning cell: `describe_feature_group` succeeding
sets the flag true; on a client error the except-block sets the flag false and
calls `feature_group.create` when the code is "ResourceNotFound", sets the
flag true when the code is "ResourceInUse", and otherwise falls through the
two if-statements, leaving the flag unassigned and re-raising nothing. -/
def provisionCell (d : SvcOutcome) : ProvisionResult :=
  match d with
  | .ok => { feature_group_exists := some true, createCalls := 0, raised := false }
  | .err code =>
    if code = "ResourceNotFound" then
      { feature_group_exists := some false, createCalls := 1, raised := false }
    else if code = "ResourceInUse" then
      { feature_group_exists := some true, createCalls := 0, raised := false }
    else
      { feature_group_exists := none, createCalls := 0, raised := false }

/-- Embedding of the ingestion cell: it reads `feature_group_exists`; if the
flag was never assigned the read itself fails with a `NameError`, otherwise a
true flag skips `processor.run` (0 submissions) and a false flag submits
exactly one processing job. -/
def ingestionCell (flag : Option Bool) : Except String Nat :=
  match flag with
  | none => .error "NameError: feature_group_exists is not defined"
  | some true => .ok 0
  | some false => .ok 1

/-- Observable result of the explainability cell: whether the artifact
download succeeded, how many `clarify_processor.run_explainability` calls were
made, and whether an exception escaped the cell. -/
structure ExplainResult where
  downloaded : Bool
  jobCalls : Nat
  raised : Bool
deriving DecidableEq

/-- Embedding of the explainability cell: `download_file` succeeding reuses
the artifact; on a client error the except-block submits one explainability
job when the code is "404" and otherwise does nothing at all (no job, no
re-raise). -/
def explainCell (d : SvcOutcome) : ExplainResult :=
  match d with
  | .ok => { downloaded := true, jobCalls := 0, raised := false }
  | .err code =>
    if code = "404" then { downloaded := false, jobCalls := 1, raised := false }
    else { downloaded := false, jobCalls := 0, raised := false }

/-- Embedding of the deployment cell: given the list of in-service endpoints
matching the endpoint name, reuse the first when the list is non-empty,
otherwise call `xgb_estimator.deploy` once. Returns the reused endpoint name
(if any) and the number of deploy calls. -/
def deployCell (endpoints : List String) : Option String × Nat :=
  match endpoints with
  | e :: _ => (some e, 0)
  | [] => (none, 1)

/-- Hyperparameter from the GPT-J notebook: `pipeline_parallel_degree = 16`
(passed to the distributed runtime as `partitions`). -/
def pipeline_parallel_degree : Nat := 16

/-- Infrastructure shape from the GPT-J notebook: `instance_count = 4`. -/
def instance_count : Nat := 4

/-- MPI configuration from the GPT-J notebook: `process_per_host = 8`. -/
def process_per_host : Nat := 8

/-- Total accelerator count implied by the configuration: one process per
accelerator, so instances times processes per host. -/
def total_accelerators : Nat := instance_count * process_per_host

/-- Data-parallel replication factor implied by the configuration: total
accelerators divided by the model-parallel partition degree. -/
def data_parallel_replicas : Nat := total_accelerators / pipeline_parallel_degree

/-- A pandas dataframe, modelled as a list of column names together with the
list of rows, each row a list of cell values rendered as strings. -/
structure DataFrame where
  cols : List String
  rows : List (List String)
deriving DecidableEq

/-- Embedding of `df_tracks.merge(user_row, how='cross')`: every row of the
left dataframe is paired with every row of the right dataframe, columns
concatenated. -/
def crossJoin (a b : DataFrame) : DataFrame :=
  { cols := a.cols ++ b.cols
    rows := a.rows.flatMap fun r => b.rows.map fun s => r ++ s }

/-- Lower-casing of a column name, character by character (the embedding of
Python's `c.lower()` on ASCII column names). -/
def lowerStr (s : String) : String := String.mk (s.data.map Char.toLower)

/-- Embedding of `data.columns = [c.lower() for c in data.columns]`. -/
def lowerCols (df : DataFrame) : DataFrame :=
  { cols := df.cols.map lowerStr, rows := df.rows }

/-- Embedding of the pandas column reprojection `data[names]`: when every
requested name is a column, keep exactly those columns in the requested
order; otherwise the lookup is a KeyError (`none`). -/
def selectCols (df : DataFrame) (names : List String) : Option DataFrame :=
  if names.all (fun n => df.cols.contains n) then
    some { cols := names
           rows := df.rows.map fun r => names.map fun n => r.getD (df.cols.indexOf n) "" }
  else none

/-- Embedding of the inference-dataframe cell: cross-join the tracks sample
with the single pivoted user row, lower-case the column names, and reproject
to `feature_names`. -/
def inference_df (tracks user : DataFrame) (feature_names : List String) :
    Option DataFrame :=
  selectCols (lowerCols (crossJoin tracks user)) feature_names

theorem length_flatMap_singleton {α β : Type} (l : List α) (g : α → β) :
    (l.flatMap fun r => [g r]).length = l.length := by
  induction l with
  | nil => rfl
  | cons a t ih =>
    have hstep : (a :: t).flatMap (fun r => [g r]) = g a :: t.flatMap fun r => [g r] := rfl
    rw [hstep, List.length_cons, ih, List.length_cons]

/-- A scored inference row: the predicted rating together with the track
identifier carried along for the playlist. -/
structure TrackRow where
  rating : Int
  trackid : String
deriving DecidableEq

/-- Descending order on predicted rating, the sort key of
`inference_df.sort_values(by='rating', ascending=False)`. -/
def ratingDesc (a b : TrackRow) : Prop := b.rating ≤ a.rating

instance : DecidableRel ratingDesc :=
  fun a b => inferInstanceAs (Decidable (b.rating ≤ a.rating))

instance : IsTotal TrackRow ratingDesc := ⟨fun a b => le_total b.rating a.rating⟩

instance : IsTrans TrackRow ratingDesc := ⟨fun _ _ _ hab hbc => le_trans hbc hab⟩

/-- Embedding of the playlist cell: sort the scored rows descending by rating
and keep the first `k` (`playlist_length = 10` in the notebook). -/
def playlistOf (rows : List TrackRow) (k : Nat) : List TrackRow :=
  (List.insertionSort ratingDesc rows).take k

/-- C1: the provisioning step is idempotent: a "ResourceNotFound" describe
error triggers exactly one create call, a "ResourceInUse" error marks the
collection as already existing with no create call, a successful describe (the
second invocation, when the collection exists) makes no create call and sets
the existence flag, and the ingestion cell skips `processor.run` whenever the
flag is true. -/
theorem provisioning_idempotent :
    (provisionCell (.err "ResourceNotFound")).createCalls = 1
    ∧ (provisionCell (.err "ResourceNotFound")).feature_group_exists = some false
    ∧ (provisionCell (.err "ResourceInUse")).feature_group_exists = some true
    ∧ (provisionCell (.err "ResourceInUse")).createCalls = 0
    ∧ (provisionCell .ok).feature_group_exists = some true
    ∧ (provisionCell .ok).createCalls = 0
    ∧ ingestionCell (provisionCell .ok).feature_group_exists = .ok 0 :=
  ⟨rfl, rfl, rfl, rfl, rfl, rfl, rfl⟩

/-- C2 counterexample: an unexpected service error does not abort the stage:
with error code "AccessDenied" the provisioning cell lets no exception escape,
and with error code "403" the explainability cell lets no exception escape —
both cells continue silently, contrary to the claim. -/
theorem unexpected_error_not_fatal_cex :
    (provisionCell (.err "AccessDenied")).raised = false
    ∧ (explainCell (.err "403")).raised = false :=
  ⟨rfl, rfl⟩

/-- C2 (amended): for every service error code that is not one of the expected
codes, the cell swallows the error and continues without retrying: the
provisioning cell makes no create call, leaves the existence flag unassigned
and raises nothing (so a later read of the flag fails instead of the
provisioning cell aborting), and the explainability cell submits no job and
raises nothing. -/
theorem unexpected_error_swallowed (code : String)
    (h1 : code ≠ "ResourceNotFound") (h2 : code ≠ "ResourceInUse")
    (h3 : code ≠ "404") :
    provisionCell (.err code)
      = { feature_group_exists := none, createCalls := 0, raised := false }
    ∧ explainCell (.err code)
      = { downloaded := false, jobCalls := 0, raised := false } := by
  constructor
  · simp [provisionCell, h1, h2]
  · simp [explainCell, h3]

/-- C2 (amended) witness: the amended behaviour at the concrete unexpected
error code "AccessDenied". -/
theorem unexpected_error_swallowed_witness :
    provisionCell (.err "AccessDenied")
      = { feature_group_exists := none, createCalls := 0, raised := false }
    ∧ explainCell (.err "AccessDenied")
      = { downloaded := false, jobCalls := 0, raised := false } :=
  unexpected_error_swallowed "AccessDenied" (by decide) (by decide) (by decide)

/-- C3: the explainability step submits at most one job, keyed on the output
path: a successful download reuses the artifact and submits no job, a "404"
download error submits exactly one job, and every outcome submits at most one
job. -/
theorem explainability_at_most_one_job :
    (explainCell .ok).downloaded = true
    ∧ (explainCell .ok).jobCalls = 0
    ∧ (explainCell (.err "404")).jobCalls = 1
    ∧ ∀ d : SvcOutcome, (explainCell d).jobCalls ≤ 1 := by
  refine ⟨rfl, rfl, rfl, ?_⟩
  intro d
  match d with
  | .ok => exact Nat.zero_le 1
  | .err code =>
    simp only [explainCell]
    split <;> simp

/-- C7: at most one in-service endpoint per name is used: when the in-service
endpoint listing is non-empty the first existing endpoint is reused and no
deploy call is made, and a new endpoint is deployed exactly when the listing
is empty. -/
theorem endpoint_reuse :
    (∀ (e : String) (rest : List String), deployCell (e :: rest) = (some e, 0))
    ∧ deployCell ([] : List String) = (none, 1) :=
  ⟨fun _ _ => rfl, rfl⟩

/-- C9: the training configuration satisfies partitions times replicas equals
the total accelerator count: 4 instances with 8 processes per host give 32
accelerators, the implied data-parallel replication factor is 2, and
16 * 2 = 32. -/
theorem parallelism_constraint :
    total_accelerators = 32
    ∧ data_parallel_replicas = 2
    ∧ pipeline_parallel_degree * data_parallel_replicas = total_accelerators := by
  decide

/-- C10: when the describe call fails with a code that is neither
"ResourceNotFound" nor "ResourceInUse", the `feature_group_exists` flag is
never assigned and the later ingestion-decision step fails on the undefined
variable, reaching neither its run nor its skip branch; the flag is assigned
exactly when describe succeeds or the code is one of the two expected
values. -/
theorem flag_undefined_on_unexpected_error :
    (∀ code : String, code ≠ "ResourceNotFound" → code ≠ "ResourceInUse" →
      (provisionCell (.err code)).feature_group_exists = none
      ∧ ingestionCell (provisionCell (.err code)).feature_group_exists
          = .error "NameError: feature_group_exists is not defined")
    ∧ ∀ code : String,
        ((provisionCell (.err code)).feature_group_exists).isSome
          ↔ (code = "ResourceNotFound" ∨ code = "ResourceInUse") := by
  constructor
  · intro code h1 h2
    constructor
    · simp [provisionCell, h1, h2]
    · simp [provisionCell, ingestionCell, h1, h2]
  · intro code
    by_cases h1 : code = "ResourceNotFound"
    · simp [provisionCell, h1]
    · by_cases h2 : code = "ResourceInUse"
      · simp [provisionCell, h1, h2]
      · simp [provisionCell, h1, h2]

/-- C10 witness: the flag is unassigned and the ingestion step fails at the
concrete unexpected error code "ValidationException". -/
theorem flag_undefined_on_unexpected_error_witness :
    (provisionCell (.err "ValidationException")).feature_group_exists = none
    ∧ ingestionCell (provisionCell (.err "ValidationException")).feature_group_exists
        = .error "NameError: feature_group_exists is not defined" :=
  flag_undefined_on_unexpected_error.1 "ValidationException" (by decide) (by decide)

/-- C4: for every tracks dataframe of N rows and every single-row entity
record whose joined, lower-cased columns cover the feature names, the cross
join followed by reprojection yields an inference dataframe with exactly N
rows whose columns are exactly `feature_names`, in that order. -/
theorem inference_df_shape (tracks user : DataFrame) (feature_names : List String)
    (u : List String) (hu : user.rows = [u])
    (hnames : feature_names.all
      (fun n => (lowerCols (crossJoin tracks user)).cols.contains n) = true) :
    ∃ df, inference_df tracks user feature_names = some df
      ∧ df.rows.length = tracks.rows.length
      ∧ df.cols = feature_names := by
  unfold inference_df selectCols
  rw [if_pos hnames]
  refine ⟨_, rfl, ?_, rfl⟩
  simp only [lowerCols, crossJoin, hu, List.map_cons, List.map_nil, List.length_map]
  exact length_flatMap_singleton tracks.rows (fun r => r ++ u)

/-- C4 witness: a concrete two-row tracks dataframe joined with a one-row
user record yields two inference rows with exactly the requested columns. -/
theorem inference_df_shape_witness :
    ∃ df, inference_df
        { cols := ["TrackId", "Danceability"], rows := [["t1", "3"], ["t2", "7"]] }
        { cols := ["Age"], rows := [["25"]] }
        ["danceability", "age"] = some df
      ∧ df.rows.length = 2
      ∧ df.cols = ["danceability", "age"] :=
  inference_df_shape
    { cols := ["TrackId", "Danceability"], rows := [["t1", "3"], ["t2", "7"]] }
    { cols := ["Age"], rows := [["25"]] }
    ["danceability", "age"] ["25"] rfl (by decide)

/-- C5: for every list of N scored rows and playlist length K, the returned
playlist is sorted in descending order of the rating score and has length
min(K, N). -/
theorem playlist_sorted_topk (rows : List TrackRow) (k : Nat) :
    List.Sorted ratingDesc (playlistOf rows k)
    ∧ (playlistOf rows k).length = min k rows.length := by
  constructor
  · exact List.Pairwise.sublist (List.take_sublist k _)
      (List.sorted_insertionSort ratingDesc rows)
  · simp [playlistOf, List.length_take, List.length_insertionSort]

/-- Verdict of `wait_for_feature_group_creation_complete` once a non-"Creating"
status is observed: return normally on "Created", otherwise raise SystemExit
with the formatted failure message. -/
def waitVerdict (name status : String) : Except String Unit :=
  if status = "Created" then .ok ()
  else .error ("SystemExit: Failed to create feature group " ++ name ++ ": " ++ status)

/-- Fuel-indexed embedding of the wait loop in
`wait_for_feature_group_creation_complete`: the k-th describe call returns
`statuses k`, and while the status equals "Creating" the loop sleeps 5 seconds
and polls again. The result records the list of sleep durations performed and
the final verdict; `none` means the loop is still polling after `fuel`
describe calls. -/
def waitLoop (statuses : Nat → String) (name : String) :
    Nat → Nat → Option (List Nat × Except String Unit)
  | 0, _ => none
  | fuel + 1, k =>
    if statuses k = "Creating" then
      (waitLoop statuses name fuel (k + 1)).map fun r => (5 :: r.1, r.2)
    else
      some ([], waitVerdict name (statuses k))

theorem waitLoop_reaches (statuses : Nat → String) (name : String) :
    ∀ (m k fuel : Nat), (∀ j, j < m → statuses (k + j) = "Creating") →
      statuses (k + m) ≠ "Creating" → m < fuel →
      waitLoop statuses name fuel k
        = some (List.replicate m 5, waitVerdict name (statuses (k + m))) := by
  intro m
  induction m with
  | zero =>
    intro k fuel hall hstop hfuel
    obtain ⟨f, rfl⟩ : ∃ f, fuel = f + 1 := ⟨fuel - 1, by omega⟩
    have hstop' : statuses k ≠ "Creating" := by simpa using hstop
    simp [waitLoop, hstop']
  | succ m ih =>
    intro k fuel hall hstop hfuel
    obtain ⟨f, rfl⟩ : ∃ f, fuel = f + 1 := ⟨fuel - 1, by omega⟩
    have h0 : statuses k = "Creating" := by simpa using hall 0 (Nat.succ_pos m)
    have hshift : k + 1 + m = k + (m + 1) := by omega
    have hrec := ih (k + 1) f
      (fun j hj => by
        have := hall (j + 1) (by omega)
        rwa [show k + 1 + j = k + (j + 1) from by omega])
      (by rwa [hshift]) (by omega)
    simp only [waitLoop, if_pos h0, hrec, List.replicate_succ]
    rw [hshift]
    rfl

theorem waitLoop_unbounded (statuses : Nat → String) (name : String) :
    ∀ (fuel k : Nat), (∀ j, j < fuel → statuses (k + j) = "Creating") →
      waitLoop statuses name fuel k = none := by
  intro fuel
  induction fuel with
  | zero => intro k _; rfl
  | succ f ih =>
    intro k h
    have h0 : statuses k = "Creating" := by simpa using h 0 (Nat.succ_pos f)
    have hrec := ih (k + 1) (fun j hj => by
      have := h (j + 1) (by omega)
      rwa [show k + 1 + j = k + (j + 1) from by omega])
    simp [waitLoop, h0, hrec]

/-- C6: the creation wait loop polls at a fixed 5-second interval with no
backoff (the performed sleeps are exactly `replicate m 5` when the first m
statuses are "Creating"), has no maximum retry bound (with only m describe
calls of fuel it is still polling), and once the first non-"Creating" status
is observed it returns normally exactly when that status is "Created",
raising the SystemExit verdict for any other terminal status. -/
theorem wait_loop_fixed_interval (name : String) (statuses : Nat → String)
    (m fuel : Nat)
    (hall : ∀ j, j < m → statuses j = "Creating")
    (hstop : statuses m ≠ "Creating") (hfuel : m < fuel) :
    waitLoop statuses name fuel 0
      = some (List.replicate m 5, waitVerdict name (statuses m))
    ∧ (waitVerdict name (statuses m) = .ok () ↔ statuses m = "Created")
    ∧ ∀ f, f ≤ m → waitLoop statuses name f 0 = none := by
  refine ⟨?_, ?_, ?_⟩
  · have h := waitLoop_reaches statuses name m 0 fuel
      (fun j hj => by simpa using hall j hj) (by simpa using hstop) hfuel
    simpa using h
  · unfold waitVerdict
    by_cases h : statuses m = "Created"
    · simp [h]
    · simp [h]
  · intro f hf
    exact waitLoop_unbounded statuses name f 0
      (fun j hj => by simpa using hall j (by omega))

/-- C6 witness: with statuses Creating, Creating, Created the loop sleeps
twice for 5 seconds and returns normally, while two units of fuel leave it
still polling. -/
theorem wait_loop_fixed_interval_witness :
    waitLoop (fun k => if k < 2 then "Creating" else "Created")
        "ratings-features-music-rec" 3 0
      = some ([5, 5], Except.ok ())
    ∧ waitLoop (fun k => if k < 2 then "Creating" else "Created")
        "ratings-features-music-rec" 2 0 = none := by
  have h := wait_loop_fixed_interval "ratings-features-music-rec"
    (fun k => if k < 2 then "Creating" else "Created") 2 3
    (by decide) (by decide) (by decide)
  exact ⟨h.1.trans rfl, h.2.2 2 (Nat.le_refl 2)⟩

/-- Numeric value of a decimal digit character. -/
def charToDigit (c : Char) : Nat := c.toNat - 48

/-- Decimal rendering of a natural number, most significant digit first (the
embedding of Python's `str` on a non-negative integer). -/
def renderNat (n : Nat) : List Char :=
  if n = 0 then ['0'] else ((Nat.digits 10 n).map Nat.digitChar).reverse

/-- Decimal rendering of an integer, with a leading minus sign when negative
(the embedding of Python's `str` on an int). -/
def renderInt (i : Int) : List Char :=
  if i < 0 then '-' :: renderNat i.natAbs else renderNat i.natAbs

/-- Parsing a decimal natural number from its digit characters (the embedding
of Python's `int` on a digit string). -/
def parseNat : List Char → Option Nat
  | [] => none
  | c :: cs =>
    if (c :: cs).all Char.isDigit then
      some ((c :: cs).foldl (fun acc ch => 10 * acc + charToDigit ch) 0)
    else none

/-- Parsing an integer: an optional leading minus sign followed by decimal
digits. -/
def parseInt : List Char → Option Int
  | [] => none
  | c :: rest =>
    if c = '-' then (parseNat rest).map fun n => -(n : Int)
    else (parseNat (c :: rest)).map fun n => (n : Int)

theorem charToDigit_digitChar {d : Nat} (hd : d < 10) :
    charToDigit (Nat.digitChar d) = d := by
  interval_cases d <;> decide

theorem isDigit_digitChar {d : Nat} (hd : d < 10) :
    (Nat.digitChar d).isDigit = true := by
  interval_cases d <;> decide

theorem mem_renderNat_isDigit (n : Nat) : ∀ c ∈ renderNat n, c.isDigit = true := by
  intro c hc
  unfold renderNat at hc
  by_cases h : n = 0
  · rw [if_pos h] at hc
    obtain rfl : c = '0' := by simpa using hc
    decide
  · rw [if_neg h] at hc
    rw [List.mem_reverse] at hc
    obtain ⟨d, hd, rfl⟩ := List.mem_map.mp hc
    exact isDigit_digitChar (Nat.digits_lt_base (by norm_num) hd)

theorem renderNat_ne_nil (n : Nat) : renderNat n ≠ [] := by
  unfold renderNat
  by_cases h : n = 0
  · simp [h]
  · rw [if_neg h]
    simp [Nat.digits_ne_nil_iff_ne_zero.mpr h]

theorem foldl_digits (L : List Nat) (hL : ∀ d ∈ L, d < 10) :
    ∀ acc : Nat,
      List.foldl (fun a ch => 10 * a + charToDigit ch) acc ((L.map Nat.digitChar).reverse)
        = acc * 10 ^ L.length + Nat.ofDigits 10 L := by
  induction L with
  | nil => intro acc; simp [Nat.ofDigits_nil]
  | cons d ds ih =>
    intro acc
    have hd : d < 10 := hL d (List.mem_cons_self d ds)
    have hds : ∀ x ∈ ds, x < 10 := fun x hx => hL x (List.mem_cons_of_mem d hx)
    simp only [List.map_cons, List.reverse_cons, List.foldl_append, List.foldl_cons,
      List.foldl_nil]
    rw [ih hds acc, charToDigit_digitChar hd, Nat.ofDigits_cons, List.length_cons,
      pow_succ]
    ring

theorem parseNat_renderNat (n : Nat) : parseNat (renderNat n) = some n := by
  by_cases h : n = 0
  · subst h; decide
  · have hdigs : ∀ d ∈ Nat.digits 10 n, d < 10 :=
      fun d hd => Nat.digits_lt_base (by norm_num) hd
    have hrender : renderNat n = ((Nat.digits 10 n).map Nat.digitChar).reverse := by
      unfold renderNat; rw [if_neg h]
    rw [hrender]
    cases hx : ((Nat.digits 10 n).map Nat.digitChar).reverse with
    | nil =>
      exfalso
      apply h
      have hmap : (Nat.digits 10 n).map Nat.digitChar = [] :=
        List.reverse_eq_nil_iff.mp hx
      have hnil : Nat.digits 10 n = [] := List.map_eq_nil_iff.mp hmap
      exact Nat.digits_eq_nil_iff_eq_zero.mp hnil
    | cons c cs =>
      have hall : (c :: cs).all Char.isDigit = true := by
        rw [← hx, List.all_eq_true]
        intro ch hch
        rw [List.mem_reverse] at hch
        obtain ⟨d, hd, rfl⟩ := List.mem_map.mp hch
        exact isDigit_digitChar (hdigs d hd)
      simp only [parseNat, hall, if_true]
      rw [← hx, foldl_digits (Nat.digits 10 n) hdigs 0, Nat.ofDigits_digits]
      simp

theorem parseInt_renderInt (i : Int) : parseInt (renderInt i) = some i := by
  unfold renderInt
  by_cases h : i < 0
  · rw [if_pos h]
    simp only [parseInt, if_pos rfl]
    rw [parseNat_renderNat]
    show some (-(i.natAbs : Int)) = some i
    congr 1
    omega
  · rw [if_neg h]
    cases hx : renderNat i.natAbs with
    | nil => exact absurd hx (renderNat_ne_nil _)
    | cons c cs =>
      have hc : c.isDigit = true := by
        refine mem_renderNat_isDigit i.natAbs c ?_
        rw [hx]; exact List.mem_cons_self c cs
      have hcne : ¬ (c = '-') := by
        intro hh; rw [hh] at hc; exact absurd hc (by decide)
      simp only [parseInt, if_neg hcne]
      rw [← hx, parseNat_renderNat]
      show some ((i.natAbs : Int)) = some i
      congr 1
      omega

/-- Embedding of `','.join(parts)`: concatenate the parts with a comma
between consecutive parts. -/
def joinComma : List (List Char) → List Char
  | [] => []
  | [p] => p
  | p :: ps => p ++ ',' :: joinComma ps

/-- Worker for splitting on commas: `acc` holds the characters of the field
read so far. -/
def splitCommaAux : List Char → List Char → List (List Char)
  | acc, [] => [acc]
  | acc, c :: cs =>
    if c = ',' then acc :: splitCommaAux [] cs
    else splitCommaAux (acc ++ [c]) cs

/-- Splitting a wire-format line back into its comma-separated fields. -/
def splitComma (s : List Char) : List (List Char) := splitCommaAux [] s

theorem splitCommaAux_no_comma (p : List Char) :
    ∀ acc, (∀ c ∈ p, c ≠ ',') → splitCommaAux acc p = [acc ++ p] := by
  induction p with
  | nil => intro acc _; simp [splitCommaAux]
  | cons c cs ih =>
    intro acc hp
    have hc : c ≠ ',' := hp c (List.mem_cons_self c cs)
    simp only [splitCommaAux, if_neg hc]
    rw [ih (acc ++ [c]) (fun x hx => hp x (List.mem_cons_of_mem c hx))]
    simp

theorem splitCommaAux_through_comma (p : List Char) :
    ∀ (acc t : List Char), (∀ c ∈ p, c ≠ ',') →
      splitCommaAux acc (p ++ ',' :: t) = (acc ++ p) :: splitCommaAux [] t := by
  induction p with
  | nil => intro acc t _; simp [splitCommaAux]
  | cons c cs ih =>
    intro acc t hp
    have hc : c ≠ ',' := hp c (List.mem_cons_self c cs)
    have hstep : splitCommaAux acc ((c :: cs) ++ ',' :: t)
        = if c = ',' then acc :: splitCommaAux [] (cs ++ ',' :: t)
          else splitCommaAux (acc ++ [c]) (cs ++ ',' :: t) := rfl
    rw [hstep, if_neg hc, ih (acc ++ [c]) t (fun x hx => hp x (List.mem_cons_of_mem c hx))]
    simp

theorem splitComma_joinComma : ∀ parts : List (List Char), parts ≠ [] →
    (∀ p ∈ parts, ∀ c ∈ p, c ≠ ',') → splitComma (joinComma parts) = parts := by
  intro parts
  induction parts with
  | nil => intro h _; exact absurd rfl h
  | cons p ps ih =>
    intro _ hno
    cases ps with
    | nil =>
      show splitCommaAux [] (joinComma [p]) = [p]
      rw [show joinComma [p] = p from rfl]
      rw [splitCommaAux_no_comma p [] (hno p (List.mem_cons_self p []))]
      simp
    | cons q qs =>
      show splitCommaAux [] (joinComma (p :: q :: qs)) = p :: q :: qs
      rw [show joinComma (p :: q :: qs) = p ++ ',' :: joinComma (q :: qs) from rfl]
      rw [splitCommaAux_through_comma p [] (joinComma (q :: qs))
        (hno p (List.mem_cons_self p (q :: qs)))]
      have hrest := ih (by simp)
        (fun x hx c hc => hno x (List.mem_cons_of_mem p hx) c hc)
      rw [show splitCommaAux [] (joinComma (q :: qs))
          = splitComma (joinComma (q :: qs)) from rfl, hrest]
      simp

/-- Embedding of `','.join([str(i) for i in row])` for one numeric row. -/
def formatRow (row : List Int) : List Char := joinComma (row.map renderInt)

/-- Embedding of the `data_inputs` cell: format every inference row to the
comma-joined wire format. -/
def data_inputs (rows : List (List Int)) : List (List Char) := rows.map formatRow

/-- Parsing a wire-format line back into its numeric values. -/
def parseRow (s : List Char) : List (Option Int) := (splitComma s).map parseInt

theorem mem_renderInt_ne_comma (i : Int) : ∀ c ∈ renderInt i, c ≠ ',' := by
  intro c hc
  unfold renderInt at hc
  by_cases h : i < 0
  · rw [if_pos h] at hc
    rcases List.mem_cons.mp hc with rfl | hc'
    · decide
    · have hd := mem_renderNat_isDigit _ c hc'
      intro hcomma; rw [hcomma] at hd; exact absurd hd (by decide)
  · rw [if_neg h] at hc
    have hd := mem_renderNat_isDigit _ c hc
    intro hcomma; rw [hcomma] at hd; exact absurd hd (by decide)

/-- C8: the CSV row encoding round-trips: formatting a non-empty row of
numeric feature values to the comma-joined wire format and parsing the result
back yields the original values. -/
theorem csv_row_round_trip (row : List Int) (hrow : row ≠ []) :
    parseRow (formatRow row) = row.map some := by
  unfold parseRow formatRow
  rw [splitComma_joinComma (row.map renderInt) (by simpa using hrow)
    (by
      intro p hp c hc
      obtain ⟨i, _, rfl⟩ := List.mem_map.mp hp
      exact mem_renderInt_ne_comma i c hc)]
  rw [List.map_map]
  refine List.map_congr_left ?_
  intro i _
  exact parseInt_renderInt i

/-- C8 witness: the concrete row [12, -3, 0] round-trips through the wire
format. -/
theorem csv_row_round_trip_witness :
    parseRow (formatRow [12, -3, 0]) = [some 12, some (-3), some 0] :=
  (csv_row_round_trip [12, -3, 0] (by decide)).trans rfl
